import Mathlib

/-!
Verification development for the outreach-automation repository.

The repository ships a React dashboard (outreach-frontend/src/App.jsx) and a
Python FastAPI backend that orchestrates campaign sends.  The dashboard source
is present and is embedded below directly from App.jsx.  The backend source
files (main.py, api_client.py, email_sender.py, linkedIn_sender.py) are not
part of the shipped sources, so the Campaign Send Orchestrator, CRM Client,
Dedup Filter and Rate Limiter are modelled from the specification text.
-/

namespace Outreach

/-! ## Frontend dashboard, embedded from outreach-frontend/src/App.jsx -/

/-- A JavaScript number as produced by parseInt: either NaN or an integer. -/
inductive JsNumber where
  | nan : JsNumber
  | int : Int → JsNumber
deriving DecidableEq, Repr

/-- Value of a decimal digit run, most significant first. -/
def jsParseDigits (cs : List Char) : Nat :=
  cs.foldl (fun acc c => acc * 10 + (c.toNat - 48)) 0

/-- JavaScript parseInt on the strings this dashboard feeds it: skips leading
spaces, reads an optional sign and then a leading run of decimal digits;
NaN when no digit is found.  (The hexadecimal auto-detection of parseInt is
irrelevant here: the dashboard only parses select-option values, which are
decimal contact ids or the literal string "all".) -/
def jsParseInt (s : String) : JsNumber :=
  match s.data.dropWhile (fun c => c = ' ') with
  | '-' :: rest =>
    let ds := rest.takeWhile Char.isDigit
    if ds.isEmpty then JsNumber.nan else JsNumber.int (-(jsParseDigits ds : Int))
  | '+' :: rest =>
    let ds := rest.takeWhile Char.isDigit
    if ds.isEmpty then JsNumber.nan else JsNumber.int (jsParseDigits ds)
  | rest =>
    let ds := rest.takeWhile Char.isDigit
    if ds.isEmpty then JsNumber.nan else JsNumber.int (jsParseDigits ds)

/-- JavaScript `a || b` on strings: `b` when `a` is absent (undefined) or the
empty string (both falsy), otherwise `a`.  Used in App.jsx as
`selectedMethods[campaignId] || "email"` and
`selectedContacts[campaignId] || "all"`. -/
def jsOr (v : Option String) (dflt : String) : String :=
  match v with
  | none => dflt
  | some s => if s = "" then dflt else s

/-- The backend base URL hard-coded in App.jsx. -/
def BACKEND_URL : String := "http://127.0.0.1:8000"

/-- The two values offered by the sending-method selector in App.jsx
(option value="email" and option value="linkedin"); handleMethodChange
stores exactly one of these and forwards it to fetchContactsForCampaign. -/
def methodOptionValues : List String := ["email", "linkedin"]

/-- URL built by fetchContactsForCampaign in App.jsx:
BACKEND_URL/campaigns/(campaignId)/contacts?contact_method=(contactMethod). -/
def fetchContactsUrl (campaignId : Int) (contactMethod : String) : String :=
  BACKEND_URL ++ "/campaigns/" ++ toString campaignId
    ++ "/contacts?contact_method=" ++ contactMethod

/-- JSON body posted to /run_campaign by sendCampaign in App.jsx. -/
structure RunCampaignBody where
  campaign_id : JsNumber
  contact_method : String
  contact_ids : List JsNumber
deriving DecidableEq, Repr

/-- The body sendCampaign builds from the per-campaign dashboard state:
`selectedMethod` is selectedMethods[campaignId] (absent when never set),
`selectedContact` is selectedContacts[campaignId].  Mirrors App.jsx lines
109-137: contactMethod defaults to "email", the contact value defaults to
"all", contact_ids is empty for "all" and otherwise the single parsed id. -/
def sendCampaignBody (campaignId : Int) (selectedMethod : Option String)
    (selectedContact : Option String) : RunCampaignBody :=
  let contactMethod := jsOr selectedMethod "email"
  let selectedContactValue := jsOr selectedContact "all"
  let contact_ids : List JsNumber :=
    if selectedContactValue = "all" then [] else [jsParseInt selectedContactValue]
  { campaign_id := jsParseInt (toString campaignId)
    contact_method := contactMethod
    contact_ids := contact_ids }

/-- JavaScript object write `m[k] = v` on the sendingCampaigns state. -/
def jsObjSet (m : Int → Option Bool) (k : Int) (v : Bool) : Int → Option Bool :=
  fun k2 => if k2 = k then some v else m k2

/-- JavaScript `delete m[k]` on the sendingCampaigns state. -/
def jsObjDelete (m : Int → Option Bool) (k : Int) : Int → Option Bool :=
  fun k2 => if k2 = k then none else m k2

/-- Effect of one sendCampaign invocation on the sendingCampaigns state
(App.jsx lines 109-158): the entry is set to true before the request, neither
the try branch (request succeeded) nor the catch branch (request threw)
touches the map, and the finally block deletes the entry. -/
def sendCampaign_sendingAfter (m : Int → Option Bool) (campaignId : Int)
    (requestOk : Bool) : Int → Option Bool :=
  let m1 := jsObjSet m campaignId true
  let m2 := if requestOk then m1 else m1
  jsObjDelete m2 campaignId

/-! ## Campaign Send Orchestrator, modelled from the spec

The backend that implements the orchestrator is not among the shipped
sources; every definition in this section carries a doc comment naming the
missing piece and follows the specification text (sections 3, 4 and 7). -/

/-- Modelled from the spec: the Channel Kind enumeration of section 3,
`Email | NetworkMessage` (the code absent from the sources; the README calls
the second channel LinkedIn). -/
inductive ChannelKind where
  | email : ChannelKind
  | networkMessage : ChannelKind
deriving DecidableEq, Repr

/-- Modelled from the spec: `SendOutcome` of section 4.2,
`Delivered | Failed(reason)`. -/
inductive SendOutcome where
  | delivered : SendOutcome
  | failed : String → SendOutcome
deriving DecidableEq, Repr

/-- Modelled from the spec: a Contact of section 3, `{id, name,
channel_identifier}`; read-only to the orchestrator. -/
structure Contact where
  id : Nat
  name : String
  channelIdentifier : String
deriving DecidableEq, Repr

/-- Modelled from the spec: an OutreachLogEntry of section 3.  The direction
field is the constant "outbound" and the timestamp plays no role in any
claim, so neither is carried. -/
structure OutreachLogEntry where
  campaignId : Nat
  contactId : Nat
  channel : ChannelKind
  outcome : SendOutcome
deriving DecidableEq, Repr

/-- Modelled from the spec: the error taxonomy of section 7 restricted to
what contact resolution can raise (UpstreamError, NotFoundError). -/
inductive OrchError where
  | upstream : OrchError
  | notFound : OrchError
deriving DecidableEq, Repr

/-- Whether a log entry is a successful outbound record for the given
campaign, contact and channel. -/
def matchesSuccess (campaignId contactId : Nat) (channel : ChannelKind)
    (e : OutreachLogEntry) : Bool :=
  e.campaignId == campaignId && e.contactId == contactId
    && e.channel == channel && e.outcome == SendOutcome.delivered

/-- Modelled from the spec: `has_been_contacted` of section 4.1 — queries
prior log entries for a matching successful outbound record. -/
def has_been_contacted (log : List OutreachLogEntry) (campaignId contactId : Nat)
    (channel : ChannelKind) : Bool :=
  log.any (matchesSuccess campaignId contactId channel)

/-- Modelled from the spec: `record_outreach` of section 4.1 — appends one
log entry to the append-only outreach log. -/
def record_outreach (log : List OutreachLogEntry) (campaignId contactId : Nat)
    (channel : ChannelKind) (outcome : SendOutcome) : List OutreachLogEntry :=
  log ++ [⟨campaignId, contactId, channel, outcome⟩]

/-- Modelled from the spec: `filter_uncontacted` of section 4.3 — for each
candidate contact queries `has_been_contacted` and keeps those for which it
is false, preserving input order. -/
def filter_uncontacted (log : List OutreachLogEntry) (campaignId : Nat)
    (channel : ChannelKind) (contacts : List Contact) : List Contact :=
  contacts.filter (fun c => !(has_been_contacted log campaignId c.id channel))

/-- Modelled from the spec: the Rate Limiter configuration of section 4.4,
an interval of delays in milliseconds with `min_delay ≤ max_delay` as the
startup precondition. -/
structure RateConfig where
  minDelay : Nat
  maxDelay : Nat
deriving DecidableEq, Repr

/-- The Rate Limiter startup precondition of section 4.4. -/
def RateConfig.valid (cfg : RateConfig) : Prop := cfg.minDelay ≤ cfg.maxDelay

/-- Modelled from the spec: one draw of `wait_before_next_send` of section
4.4 — a duration drawn uniformly from the configured interval; the draw is
made explicit as a function of one sample `r` of an external random stream. -/
def drawDelay (cfg : RateConfig) (r : Nat) : Nat :=
  cfg.minDelay + r % (cfg.maxDelay - cfg.minDelay + 1)

/-- Modelled from the spec: whether a send outcome is the session-level
fatal condition of sections 4.2 and 4.5 (`Failed("session_invalid")`). -/
def sessionFatal : SendOutcome → Bool
  | SendOutcome.delivered => false
  | SendOutcome.failed reason => reason == "session_invalid"

/-- Observable event of one orchestrator run: a Rate Limiter delay of the
given duration, or one `Channel.send` invocation for the given contact. -/
inductive TraceEvent where
  | delay : Nat → TraceEvent
  | channelSend : Nat → TraceEvent
deriving DecidableEq, Repr

/-- Whether a trace event is a Rate Limiter delay. -/
def TraceEvent.isDelay : TraceEvent → Bool
  | TraceEvent.delay _ => true
  | TraceEvent.channelSend _ => false

/-- Modelled from the spec: the SendReport of section 3. -/
structure SendReport where
  attempted : List Nat
  sent : List Nat
  skipped_already_contacted : List Nat
  failed : List (Nat × String)
deriving DecidableEq, Repr

/-- Modelled from the spec: the contact selector of section 3, either "all"
or an explicit set of contact ids. -/
inductive ContactSelector where
  | all : ContactSelector
  | ids : List Nat → ContactSelector
deriving DecidableEq, Repr

/-- Modelled from the spec: a SendRequest of section 3. -/
structure SendRequest where
  campaignId : Nat
  channel : ChannelKind
  selector : ContactSelector

/-- Modelled from the spec: the CRM Client of section 4.1 as the orchestrator
sees it — a contact-listing capability (which may fail with UpstreamError or
NotFoundError) together with the current outreach log. -/
structure Crm where
  listContacts : Nat → ChannelKind → Except OrchError (List Contact)
  log : List OutreachLogEntry

/-- What the send loop of one run produces: the log entries appended by
`record_outreach`, the observable trace, and the attempted, sent and failed
classifications of the report. -/
structure LoopResult where
  newLog : List OutreachLogEntry
  trace : List TraceEvent
  attempted : List Nat
  sent : List Nat
  failed : List (Nat × String)
deriving DecidableEq, Repr

/-- Report classification of one attempted contact into `sent`. -/
def sentEntryOf (c : Contact) (o : SendOutcome) : List Nat :=
  match o with
  | SendOutcome.delivered => [c.id]
  | SendOutcome.failed _ => []

/-- Report classification of one attempted contact into `failed`. -/
def failEntryOf (c : Contact) (o : SendOutcome) : List (Nat × String) :=
  match o with
  | SendOutcome.delivered => []
  | SendOutcome.failed r => [(c.id, r)]

/-- Modelled from the spec: steps 3 and 4 of the orchestrator algorithm of
section 4.5.  The eligible contacts are processed strictly sequentially; for
the contact at position `i` the Rate Limiter runs first (skipped before the
very first send, i = 0), then `Channel.send` — modelled as the fixed outcome
function `sendFn`, with `rands` the random stream feeding the Rate Limiter —
then `record_outreach` is called unconditionally with the resulting outcome
and the contact is classified into `sent` or `failed`.  A session-fatal
outcome halts the run: the remaining contacts are not sent and are all
reported as failed("aborted: session invalid"). -/
def sendLoop (campaignId : Nat) (channel : ChannelKind)
    (sendFn : Contact → SendOutcome) (cfg : RateConfig) (rands : Nat → Nat) :
    List Contact → Nat → LoopResult
  | [], _ => ⟨[], [], [], [], []⟩
  | c :: rest, i =>
    let pre : List TraceEvent :=
      if i = 0 then [] else [TraceEvent.delay (drawDelay cfg (rands i))]
    let o := sendFn c
    if sessionFatal o then
      ⟨[⟨campaignId, c.id, channel, o⟩], pre ++ [TraceEvent.channelSend c.id],
        [c.id], sentEntryOf c o,
        failEntryOf c o ++ rest.map (fun d => (d.id, "aborted: session invalid"))⟩
    else
      let t := sendLoop campaignId channel sendFn cfg rands rest (i + 1)
      ⟨⟨campaignId, c.id, channel, o⟩ :: t.newLog,
        pre ++ TraceEvent.channelSend c.id :: t.trace,
        c.id :: t.attempted,
        sentEntryOf c o ++ t.sent,
        failEntryOf c o ++ t.failed⟩

/-- Modelled from the spec: step 1 of section 4.5 — resolve the target
contacts; for an explicit id set the ids are validated against the campaign
contact set, failing with NotFoundError when an id is unknown (the policy
the spec fixes). -/
def resolveContacts (crm : Crm) (req : SendRequest) :
    Except OrchError (List Contact) :=
  match crm.listContacts req.campaignId req.channel with
  | Except.error e => Except.error e
  | Except.ok contacts =>
    match req.selector with
    | ContactSelector.all => Except.ok contacts
    | ContactSelector.ids ids =>
      if ids.all (fun i => contacts.any (fun c => c.id == i)) then
        Except.ok (contacts.filter (fun c => ids.contains c.id))
      else
        Except.error OrchError.notFound

/-- Everything one `run` invocation leaves behind: the result surfaced to
the caller, the CRM outreach log after the run, and the observable trace of
delays and Channel.send invocations. -/
structure RunOutput where
  result : Except OrchError SendReport
  log : List OutreachLogEntry
  trace : List TraceEvent

/-- Modelled from the spec: `run` of section 4.5.  Contact resolution errors
abort before any send, leaving the log untouched and the trace empty; the
Dedup Filter then splits the resolved contacts into the eligible subset and
`skipped_already_contacted`; the send loop processes the eligible subset. -/
def run (crm : Crm) (sendFn : Contact → SendOutcome) (cfg : RateConfig)
    (rands : Nat → Nat) (req : SendRequest) : RunOutput :=
  match resolveContacts crm req with
  | Except.error e => ⟨Except.error e, crm.log, []⟩
  | Except.ok contacts =>
    let eligible := filter_uncontacted crm.log req.campaignId req.channel contacts
    let skipped :=
      (contacts.filter
        (fun c => has_been_contacted crm.log req.campaignId c.id req.channel)).map
        (fun c => c.id)
    let r := sendLoop req.campaignId req.channel sendFn cfg rands eligible 0
    ⟨Except.ok ⟨r.attempted, r.sent, skipped, r.failed⟩,
      crm.log ++ r.newLog, r.trace⟩

/-- The contacts the send loop actually attempts: the prefix of the eligible
sequence up to and including the first session-fatal outcome. -/
def attemptedOf (sendFn : Contact → SendOutcome) : List Contact → List Contact
  | [] => []
  | c :: rest =>
    if sessionFatal (sendFn c) then [c] else c :: attemptedOf sendFn rest

/-- The contacts the send loop never reaches because of a session-fatal
abort. -/
def abortedOf (sendFn : Contact → SendOutcome) : List Contact → List Contact
  | [] => []
  | c :: rest =>
    if sessionFatal (sendFn c) then rest else abortedOf sendFn rest


/-- The reason string of a failed outcome ("" on delivered, never used there). -/
def failReason : SendOutcome → String
  | SendOutcome.delivered => ""
  | SendOutcome.failed r => r

/-- The trace one send-loop run produces, as a function of the eligible list. -/
def traceOf (sendFn : Contact → SendOutcome) (cfg : RateConfig) (rands : Nat → Nat) :
    List Contact → Nat → List TraceEvent
  | [], _ => []
  | c :: rest, i =>
    (if i = 0 then [] else [TraceEvent.delay (drawDelay cfg (rands i))])
      ++ TraceEvent.channelSend c.id
        :: (if sessionFatal (sendFn c) then [] else traceOf sendFn cfg rands rest (i + 1))

theorem attemptedOf_append_abortedOf (sendFn : Contact → SendOutcome) :
    ∀ l : List Contact, attemptedOf sendFn l ++ abortedOf sendFn l = l := by
  intro l
  induction l with
  | nil => rfl
  | cons c rest ih =>
    by_cases h : sessionFatal (sendFn c) = true
    · simp [attemptedOf, abortedOf, h]
    · simp [attemptedOf, abortedOf, h, ih]

theorem attemptedOf_sublist (sendFn : Contact → SendOutcome) (l : List Contact) :
    (attemptedOf sendFn l).Sublist l := by
  conv_rhs => rw [← attemptedOf_append_abortedOf sendFn l]
  exact List.sublist_append_left _ _

theorem sendLoop_newLog (campaignId : Nat) (channel : ChannelKind)
    (sendFn : Contact → SendOutcome) (cfg : RateConfig) (rands : Nat → Nat) :
    ∀ (l : List Contact) (i : Nat),
      (sendLoop campaignId channel sendFn cfg rands l i).newLog
        = (attemptedOf sendFn l).map (fun c => ⟨campaignId, c.id, channel, sendFn c⟩) := by
  intro l
  induction l with
  | nil => intro i; rfl
  | cons c rest ih =>
    intro i
    by_cases h : sessionFatal (sendFn c) = true
    · simp [sendLoop, attemptedOf, h]
    · simp [sendLoop, attemptedOf, h, ih]

theorem sendLoop_attempted (campaignId : Nat) (channel : ChannelKind)
    (sendFn : Contact → SendOutcome) (cfg : RateConfig) (rands : Nat → Nat) :
    ∀ (l : List Contact) (i : Nat),
      (sendLoop campaignId channel sendFn cfg rands l i).attempted
        = (attemptedOf sendFn l).map (fun c => c.id) := by
  intro l
  induction l with
  | nil => intro i; rfl
  | cons c rest ih =>
    intro i
    by_cases h : sessionFatal (sendFn c) = true
    · simp [sendLoop, attemptedOf, h]
    · simp [sendLoop, attemptedOf, h, ih]

theorem sendLoop_sent (campaignId : Nat) (channel : ChannelKind)
    (sendFn : Contact → SendOutcome) (cfg : RateConfig) (rands : Nat → Nat) :
    ∀ (l : List Contact) (i : Nat),
      (sendLoop campaignId channel sendFn cfg rands l i).sent
        = ((attemptedOf sendFn l).filter
            (fun c => sendFn c == SendOutcome.delivered)).map (fun c => c.id) := by
  intro l
  induction l with
  | nil => intro i; rfl
  | cons c rest ih =>
    intro i
    by_cases h : sessionFatal (sendFn c) = true
    · cases hc : sendFn c with
      | delivered => rw [hc] at h; simp [sessionFatal] at h
      | failed r =>
        rw [hc] at h
        simp [sendLoop, attemptedOf, h, hc, sentEntryOf]
    · cases hc : sendFn c with
      | delivered =>
        rw [hc] at h
        simp [sendLoop, attemptedOf, h, hc, sentEntryOf, ih]
      | failed r =>
        rw [hc] at h
        simp [sendLoop, attemptedOf, h, hc, sentEntryOf, ih]

theorem sendLoop_failed (campaignId : Nat) (channel : ChannelKind)
    (sendFn : Contact → SendOutcome) (cfg : RateConfig) (rands : Nat → Nat) :
    ∀ (l : List Contact) (i : Nat),
      (sendLoop campaignId channel sendFn cfg rands l i).failed
        = ((attemptedOf sendFn l).filter
            (fun c => !(sendFn c == SendOutcome.delivered))).map
              (fun c => (c.id, failReason (sendFn c)))
          ++ (abortedOf sendFn l).map (fun c => (c.id, "aborted: session invalid")) := by
  intro l
  induction l with
  | nil => intro i; rfl
  | cons c rest ih =>
    intro i
    by_cases h : sessionFatal (sendFn c) = true
    · cases hc : sendFn c with
      | delivered => rw [hc] at h; simp [sessionFatal] at h
      | failed r =>
        rw [hc] at h
        simp [sendLoop, attemptedOf, abortedOf, h, hc, failEntryOf, failReason]
    · cases hc : sendFn c with
      | delivered =>
        rw [hc] at h
        simp [sendLoop, attemptedOf, abortedOf, h, hc, failEntryOf, ih]
      | failed r =>
        rw [hc] at h
        simp [sendLoop, attemptedOf, abortedOf, h, hc, failEntryOf, failReason, ih]

theorem sendLoop_trace (campaignId : Nat) (channel : ChannelKind)
    (sendFn : Contact → SendOutcome) (cfg : RateConfig) (rands : Nat → Nat) :
    ∀ (l : List Contact) (i : Nat),
      (sendLoop campaignId channel sendFn cfg rands l i).trace
        = traceOf sendFn cfg rands l i := by
  intro l
  induction l with
  | nil => intro i; rfl
  | cons c rest ih =>
    intro i
    by_cases h : sessionFatal (sendFn c) = true
    · simp [sendLoop, traceOf, h]
    · simp [sendLoop, traceOf, h, ih]


theorem drawDelay_bounds (cfg : RateConfig) (hvalid : cfg.valid) (r : Nat) :
    cfg.minDelay ≤ drawDelay cfg r ∧ drawDelay cfg r ≤ cfg.maxDelay := by
  have hv : cfg.minDelay ≤ cfg.maxDelay := hvalid
  unfold drawDelay
  constructor
  · exact Nat.le_add_right _ _
  · have hlt : r % (cfg.maxDelay - cfg.minDelay + 1) < cfg.maxDelay - cfg.minDelay + 1 :=
      Nat.mod_lt _ (Nat.succ_pos _)
    omega

theorem traceOf_delay_mem (sendFn : Contact → SendOutcome) (cfg : RateConfig)
    (rands : Nat → Nat) (hvalid : cfg.valid) :
    ∀ (l : List Contact) (i : Nat) (ms : Nat),
      TraceEvent.delay ms ∈ traceOf sendFn cfg rands l i →
        cfg.minDelay ≤ ms ∧ ms ≤ cfg.maxDelay := by
  intro l
  induction l with
  | nil => intro i ms hm; simp [traceOf] at hm
  | cons c rest ih =>
    intro i ms hm
    by_cases h : sessionFatal (sendFn c) = true
    · simp [traceOf, h] at hm
      rcases hm with ⟨hi, hms⟩
      subst hms
      exact drawDelay_bounds cfg hvalid (rands i)
    · simp [traceOf, h] at hm
      rcases hm with ⟨hi, hms⟩ | hm
      · subst hms
        exact drawDelay_bounds cfg hvalid (rands i)
      · exact ih (i + 1) ms hm

theorem traceOf_delay_count (sendFn : Contact → SendOutcome) (cfg : RateConfig)
    (rands : Nat → Nat) :
    ∀ (l : List Contact) (i : Nat), (∀ c ∈ l, sessionFatal (sendFn c) = false) →
      (traceOf sendFn cfg rands l i).countP TraceEvent.isDelay
        = if i = 0 then l.length - 1 else l.length := by
  intro l
  induction l with
  | nil => intro i hnf; simp [traceOf]
  | cons c rest ih =>
    intro i hnf
    have hc : sessionFatal (sendFn c) = false := hnf c (List.mem_cons_self c rest)
    have hrest : ∀ d ∈ rest, sessionFatal (sendFn d) = false :=
      fun d hd => hnf d (List.mem_cons_of_mem c hd)
    have hrec := ih (i + 1) hrest
    by_cases hi : i = 0
    · subst hi
      simp at hrec
      simp [traceOf, hc, List.countP_cons, TraceEvent.isDelay, hrec]
    · simp [traceOf, hc, hi, List.countP_cons, List.countP_append, TraceEvent.isDelay, hrec]

theorem traceOf_channelSend_mem (sendFn : Contact → SendOutcome) (cfg : RateConfig)
    (rands : Nat → Nat) :
    ∀ (l : List Contact) (i : Nat) (x : Nat),
      TraceEvent.channelSend x ∈ traceOf sendFn cfg rands l i →
        x ∈ (attemptedOf sendFn l).map (fun c => c.id) := by
  intro l
  induction l with
  | nil => intro i x hm; simp [traceOf] at hm
  | cons c rest ih =>
    intro i x hm
    by_cases h : sessionFatal (sendFn c) = true
    · simp [traceOf, h] at hm
      simp [attemptedOf, h, hm]
    · simp [traceOf, h] at hm
      rcases hm with hm | hm
      · simp [attemptedOf, h, hm]
      · have := ih (i + 1) x hm
        simp [attemptedOf, h]
        simp at this
        exact Or.inr this

theorem has_been_contacted_append (log1 log2 : List OutreachLogEntry)
    (campaignId contactId : Nat) (channel : ChannelKind) :
    has_been_contacted (log1 ++ log2) campaignId contactId channel
      = (has_been_contacted log1 campaignId contactId channel
          || has_been_contacted log2 campaignId contactId channel) := by
  unfold has_been_contacted
  exact List.any_append

theorem attemptedOf_of_no_fatal (sendFn : Contact → SendOutcome) :
    ∀ l : List Contact, (∀ c ∈ l, sessionFatal (sendFn c) = false) →
      attemptedOf sendFn l = l := by
  intro l
  induction l with
  | nil => intro hnf; rfl
  | cons c rest ih =>
    intro hnf
    have hc : sessionFatal (sendFn c) = false := hnf c (List.mem_cons_self c rest)
    have hrest := ih (fun d hd => hnf d (List.mem_cons_of_mem c hd))
    simp [attemptedOf, hc, hrest]

theorem attemptedOf_fatal_split (sendFn : Contact → SendOutcome)
    (fc : Contact) (hfatal : sessionFatal (sendFn fc) = true) :
    ∀ l1 l2 : List Contact, (∀ c ∈ l1, sessionFatal (sendFn c) = false) →
      attemptedOf sendFn (l1 ++ fc :: l2) = l1 ++ [fc]
        ∧ abortedOf sendFn (l1 ++ fc :: l2) = l2 := by
  intro l1
  induction l1 with
  | nil => intro l2 hnf; simp [attemptedOf, abortedOf, hfatal]
  | cons c rest ih =>
    intro l2 hnf
    have hc : sessionFatal (sendFn c) = false := hnf c (List.mem_cons_self c rest)
    have hrest := ih l2 (fun d hd => hnf d (List.mem_cons_of_mem c hd))
    simp [attemptedOf, abortedOf, hc, hrest]

theorem countP_split {α : Type} (p q : α → Bool) :
    ∀ l : List α,
      (l.countP fun a => p a && q a) + (l.countP fun a => p a && !q a)
        = l.countP p := by
  intro l
  induction l with
  | nil => rfl
  | cons a t ih =>
    by_cases hp : p a = true
    · by_cases hq : q a = true
      · simp [List.countP_cons, hp, hq]; omega
      · simp [List.countP_cons, hp, hq]; omega
    · simp [List.countP_cons, hp]; omega


theorem mem_filter_uncontacted (log : List OutreachLogEntry) (campaignId : Nat)
    (channel : ChannelKind) (contacts : List Contact) (c : Contact) :
    c ∈ filter_uncontacted log campaignId channel contacts
      ↔ c ∈ contacts ∧ has_been_contacted log campaignId c.id channel = false := by
  unfold filter_uncontacted
  rw [List.mem_filter]
  simp [Bool.not_eq_true']

theorem filter_uncontacted_sublist (log : List OutreachLogEntry) (campaignId : Nat)
    (channel : ChannelKind) (contacts : List Contact) :
    (filter_uncontacted log campaignId channel contacts).Sublist contacts :=
  List.filter_sublist contacts

theorem run_of_resolve_error (crm : Crm) (sendFn : Contact → SendOutcome)
    (cfg : RateConfig) (rands : Nat → Nat) (req : SendRequest) (e : OrchError)
    (h : resolveContacts crm req = Except.error e) :
    run crm sendFn cfg rands req = ⟨Except.error e, crm.log, []⟩ := by
  unfold run
  rw [h]

theorem run_of_resolve_ok (crm : Crm) (sendFn : Contact → SendOutcome)
    (cfg : RateConfig) (rands : Nat → Nat) (req : SendRequest)
    (contacts : List Contact) (h : resolveContacts crm req = Except.ok contacts) :
    run crm sendFn cfg rands req =
      ⟨Except.ok
          ⟨(attemptedOf sendFn
              (filter_uncontacted crm.log req.campaignId req.channel contacts)).map
                (fun c => c.id),
            ((attemptedOf sendFn
                (filter_uncontacted crm.log req.campaignId req.channel contacts)).filter
                  (fun c => sendFn c == SendOutcome.delivered)).map (fun c => c.id),
            (contacts.filter
              (fun c => has_been_contacted crm.log req.campaignId c.id req.channel)).map
                (fun c => c.id),
            ((attemptedOf sendFn
                (filter_uncontacted crm.log req.campaignId req.channel contacts)).filter
                  (fun c => !(sendFn c == SendOutcome.delivered))).map
                    (fun c => (c.id, failReason (sendFn c)))
              ++ (abortedOf sendFn
                  (filter_uncontacted crm.log req.campaignId req.channel contacts)).map
                    (fun c => (c.id, "aborted: session invalid"))⟩,
        crm.log
          ++ (attemptedOf sendFn
              (filter_uncontacted crm.log req.campaignId req.channel contacts)).map
                (fun c => ⟨req.campaignId, c.id, req.channel, sendFn c⟩),
        traceOf sendFn cfg rands
          (filter_uncontacted crm.log req.campaignId req.channel contacts) 0⟩ := by
  unfold run
  rw [h]
  simp only [sendLoop_attempted, sendLoop_sent, sendLoop_failed, sendLoop_newLog,
    sendLoop_trace]

theorem hbc_append_of_delivered (log : List OutreachLogEntry) (campaignId : Nat)
    (channel : ChannelKind) (sendFn : Contact → SendOutcome) (att : List Contact)
    (c : Contact) (hc : c ∈ att) (hdel : sendFn c = SendOutcome.delivered) :
    has_been_contacted
        (log ++ att.map (fun d => ⟨campaignId, d.id, channel, sendFn d⟩))
        campaignId c.id channel = true := by
  rw [has_been_contacted_append]
  rw [Bool.or_eq_true]
  right
  unfold has_been_contacted
  rw [List.any_eq_true]
  refine ⟨⟨campaignId, c.id, channel, sendFn c⟩, List.mem_map_of_mem _ hc, ?_⟩
  simp [matchesSuccess, hdel]

theorem exists_delivered_of_hbc_append (log : List OutreachLogEntry)
    (campaignId : Nat) (channel : ChannelKind) (sendFn : Contact → SendOutcome)
    (att : List Contact) (x : Nat)
    (h2 : has_been_contacted
        (log ++ att.map (fun d => ⟨campaignId, d.id, channel, sendFn d⟩))
        campaignId x channel = true)
    (h1 : has_been_contacted log campaignId x channel = false) :
    ∃ c ∈ att, c.id = x ∧ sendFn c = SendOutcome.delivered := by
  rw [has_been_contacted_append, h1, Bool.false_or] at h2
  unfold has_been_contacted at h2
  rw [List.any_eq_true] at h2
  obtain ⟨e, he, hm⟩ := h2
  obtain ⟨c, hc, rfl⟩ := List.mem_map.mp he
  simp [matchesSuccess] at hm
  exact ⟨c, hc, hm.1, hm.2⟩

theorem no_delivered_in_attemptedOf (sendFn : Contact → SendOutcome) :
    ∀ {l2 l1 : List Contact}, l2.Sublist l1 →
      (l1.map (fun c => c.id)).Nodup →
      (∀ d ∈ l1, d ∉ l2 → sessionFatal (sendFn d) = false) →
      (∀ d ∈ l2, sendFn d = SendOutcome.delivered → d ∉ attemptedOf sendFn l1) →
      ∀ c ∈ attemptedOf sendFn l2, ¬ sendFn c = SendOutcome.delivered := by
  intro l2 l1 hsub
  induction hsub with
  | slnil =>
    intro _ _ _ c hc
    simp [attemptedOf] at hc
  | cons a hsub ih =>
    rename_i s t
    intro hnd h2 h4
    rw [List.map_cons, List.nodup_cons] at hnd
    have hanins : a ∉ s := by
      intro hmem
      exact hnd.1 (List.mem_map_of_mem _ (hsub.subset hmem))
    have hafatal : sessionFatal (sendFn a) = false :=
      h2 a (List.mem_cons_self a t) hanins
    have hattb : attemptedOf sendFn (a :: t) = a :: attemptedOf sendFn t := by
      simp [attemptedOf, hafatal]
    refine ih hnd.2 ?_ ?_
    · intro d hd hdns
      exact h2 d (List.mem_cons_of_mem a hd) hdns
    · intro d hd hdel
      have hna := h4 d hd hdel
      rw [hattb] at hna
      exact fun hmem => hna (List.mem_cons_of_mem a hmem)
  | cons₂ a hsub ih =>
    rename_i s t
    intro hnd h2 h4 c hc
    rw [List.map_cons, List.nodup_cons] at hnd
    by_cases hfa : sessionFatal (sendFn a) = true
    · have hea : attemptedOf sendFn (a :: s) = [a] := by simp [attemptedOf, hfa]
      rw [hea] at hc
      simp at hc
      subst hc
      intro hdel
      rw [hdel] at hfa
      simp [sessionFatal] at hfa
    · have hatts : attemptedOf sendFn (a :: s) = a :: attemptedOf sendFn s := by
        simp [attemptedOf, hfa]
      have hattb : attemptedOf sendFn (a :: t) = a :: attemptedOf sendFn t := by
        simp [attemptedOf, hfa]
      rw [hatts] at hc
      rcases List.mem_cons.mp hc with hceq | hcs
      · subst hceq
        intro hdel
        exact h4 c (List.mem_cons_self c s) hdel (by rw [hattb]; exact List.mem_cons_self _ _)
      · refine ih hnd.2 ?_ ?_ c hcs
        · intro d hd hdns
          have hda : d ≠ a := by
            intro he
            exact hnd.1 (he ▸ List.mem_map_of_mem _ hd)
          refine h2 d (List.mem_cons_of_mem a hd) ?_
          intro hmem
          rcases List.mem_cons.mp hmem with h | h
          · exact hda h
          · exact hdns h
        · intro d hd hdel
          have hna := h4 d (List.mem_cons_of_mem a hd) hdel
          rw [hattb] at hna
          exact fun hmem => hna (List.mem_cons_of_mem a hmem)


/-! ## Sample worlds used by the witnesses -/

/-- Sample contact 10 of the spec scenario of section 8. -/
def c10 : Contact := ⟨10, "a", "a@x.com"⟩

/-- Sample contact 11 of the spec scenario of section 8. -/
def c11 : Contact := ⟨11, "b", "b@x.com"⟩

/-- Third sample contact. -/
def c12 : Contact := ⟨12, "c", "c@x.com"⟩

/-- Sample contact list of campaign 3. -/
def sampleContacts : List Contact := [c10, c11, c12]

/-- A CRM contact-listing capability knowing exactly campaign 3 on the email
channel. -/
def sampleList (contacts : List Contact) :
    Nat → ChannelKind → Except OrchError (List Contact) :=
  fun campaignId channel =>
    if campaignId = 3 ∧ channel = ChannelKind.email then Except.ok contacts
    else Except.error OrchError.notFound

/-- A log holding one successful email record for contact 10 of campaign 3. -/
def log10 : List OutreachLogEntry :=
  [⟨3, 10, ChannelKind.email, SendOutcome.delivered⟩]

/-- Sample CRM whose log already records contact 10 as contacted. -/
def crmA : Crm := ⟨sampleList sampleContacts, log10⟩

/-- Sample CRM with an empty outreach log. -/
def crmB : Crm := ⟨sampleList sampleContacts, []⟩

/-- Sample CRM knowing only contacts 10 and 11, empty log. -/
def crmC : Crm := ⟨sampleList [c10, c11], []⟩

/-- A CRM whose contact listing always fails with UpstreamError. -/
def crmErr : Crm := ⟨fun _ _ => Except.error OrchError.upstream, []⟩

/-- A channel delivering every message. -/
def allDelivered : Contact → SendOutcome := fun _ => SendOutcome.delivered

/-- A channel hitting the session-fatal condition on contact 10 and
delivering to everyone else. -/
def fatal10 : Contact → SendOutcome :=
  fun c => if c.id = 10 then SendOutcome.failed "session_invalid"
    else SendOutcome.delivered

/-- A channel failing non-fatally on contact 11 and delivering to everyone
else. -/
def mixedSend : Contact → SendOutcome :=
  fun c => if c.id = 11 then SendOutcome.failed "bad_address"
    else SendOutcome.delivered

/-- The rate configuration of the shipped .env (1500-3500 ms). -/
def cfgA : RateConfig := ⟨1500, 3500⟩

/-- A degenerate random stream. -/
def zeroRands : Nat → Nat := fun _ => 0

/-- Send request: campaign 3, email channel, selector "all". -/
def reqA : SendRequest := ⟨3, ChannelKind.email, ContactSelector.all⟩

/-! ## Claims about the dashboard (App.jsx) -/

/-- C3 counterexample: when the operator picks the LinkedIn option, the
dashboard transmits the contact_method value "linkedin" — both in the
contacts query string and in the /run_campaign body — and "linkedin" is
neither "email" nor "network-message", so the claim fails on the code. -/
theorem claim_C3_counterexample :
    "linkedin" ∈ methodOptionValues
      ∧ (sendCampaignBody 3 (some "linkedin") none).contact_method = "linkedin"
      ∧ fetchContactsUrl 3 "linkedin"
          = "http://127.0.0.1:8000/campaigns/3/contacts?contact_method=linkedin"
      ∧ ¬("linkedin" = "email" ∨ "linkedin" = "network-message") := by
  refine ⟨by decide, rfl, by decide, by decide⟩

/-- C3 (amended): every contact_method value the dashboard transmits to the
backend — in the query string built by fetchContactsForCampaign and in the
body built by sendCampaign — is one of the two strings "email" or
"linkedin". -/
theorem claim_C3_transmitted_methods (stored : Option String)
    (hstored : stored = none ∨ ∃ v ∈ methodOptionValues, stored = some v) :
    ∀ (campaignId : Int) (sel : Option String),
      ((sendCampaignBody campaignId stored sel).contact_method = "email"
          ∨ (sendCampaignBody campaignId stored sel).contact_method = "linkedin")
        ∧ ∀ m ∈ methodOptionValues,
            (m = "email" ∨ m = "linkedin")
              ∧ fetchContactsUrl campaignId m
                  = BACKEND_URL ++ "/campaigns/" ++ toString campaignId
                    ++ "/contacts?contact_method=" ++ m := by
  intro campaignId sel
  constructor
  · have hcm : (sendCampaignBody campaignId stored sel).contact_method
        = jsOr stored "email" := rfl
    rcases hstored with h | ⟨v, hv, h⟩
    · subst h
      left
      rw [hcm]
      rfl
    · subst h
      rw [hcm]
      simp [methodOptionValues] at hv
      rcases hv with hv | hv
      · subst hv
        left
        rfl
      · subst hv
        right
        rfl
  · intro m hm
    refine ⟨?_, rfl⟩
    simp [methodOptionValues] at hm
    exact hm

/-- Witness for the amended C3 at the concrete LinkedIn selection. -/
theorem claim_C3_transmitted_methods_witness :
    ((sendCampaignBody 7 (some "linkedin") none).contact_method = "email"
        ∨ (sendCampaignBody 7 (some "linkedin") none).contact_method = "linkedin")
      ∧ ("linkedin" = "email" ∨ "linkedin" = "linkedin") := by
  have h := claim_C3_transmitted_methods (some "linkedin")
    (Or.inr ⟨"linkedin", by decide, rfl⟩) 7 none
  exact ⟨h.1, (h.2 "linkedin" (by decide)).1⟩

/-- C8: in every /run_campaign body built by sendCampaign, contact_ids is
the empty list exactly when the effective contact selection is "all", and
otherwise it is the one-element list holding the selected value parsed as an
integer (the selection values the UI offers are never the empty string, the
hypothesis `hne`). -/
theorem claim_C8_contact_ids (campaignId : Int) (selectedMethod : Option String)
    (selectedContact : Option String)
    (hne : ∀ s, selectedContact = some s → s ≠ "") :
    ((sendCampaignBody campaignId selectedMethod selectedContact).contact_ids = []
        ↔ jsOr selectedContact "all" = "all")
      ∧ ∀ v, selectedContact = some v → v ≠ "all" →
          (sendCampaignBody campaignId selectedMethod selectedContact).contact_ids
            = [jsParseInt v] := by
  constructor
  · have hids : (sendCampaignBody campaignId selectedMethod selectedContact).contact_ids
        = if jsOr selectedContact "all" = "all" then []
          else [jsParseInt (jsOr selectedContact "all")] := rfl
    rw [hids]
    by_cases h : jsOr selectedContact "all" = "all"
    · simp [h]
    · simp [h]
  · intro v hv hvall
    have hne2 : v ≠ "" := hne v hv
    have hjs : jsOr selectedContact "all" = v := by
      rw [hv]
      unfold jsOr
      simp [hne2]
    have hids : (sendCampaignBody campaignId selectedMethod selectedContact).contact_ids
        = if jsOr selectedContact "all" = "all" then []
          else [jsParseInt (jsOr selectedContact "all")] := rfl
    rw [hids, hjs]
    simp [hvall]

/-- Witness for C8 at the concrete selection of contact 32 and at "all". -/
theorem claim_C8_contact_ids_witness :
    (sendCampaignBody 3 none (some "32")).contact_ids = [JsNumber.int 32]
      ∧ (sendCampaignBody 3 none none).contact_ids = [] := by
  constructor
  · have h := (claim_C8_contact_ids 3 none (some "32")
      (fun s hs => by cases hs; decide)).2 "32" rfl (by decide)
    rw [h]
    rfl
  · exact (claim_C8_contact_ids 3 none none (fun s hs => by cases hs)).1.mpr rfl

/-- C9: whatever the outcome of the POST request, sendCampaign always clears
the sendingCampaigns entry of the campaign in its finally block, so the send
button is never left permanently disabled. -/
theorem claim_C9_sending_state_cleared (m : Int → Option Bool) (campaignId : Int)
    (requestOk : Bool) :
    sendCampaign_sendingAfter m campaignId requestOk campaignId = none := by
  unfold sendCampaign_sendingAfter jsObjDelete
  simp

/-- C10: with no sending method and no contact selection recorded, the body
sendCampaign builds defaults to contact_method "email" and contact_ids [] —
email to all contacts of the campaign. -/
theorem claim_C10_default_email_all (campaignId : Int) :
    (sendCampaignBody campaignId none none).contact_method = "email"
      ∧ (sendCampaignBody campaignId none none).contact_ids = [] :=
  ⟨rfl, rfl⟩


/-! ## Claims about the orchestrator -/

theorem resolveContacts_all (crm : Crm) (campaignId : Nat) (channel : ChannelKind)
    (contacts : List Contact)
    (h : crm.listContacts campaignId channel = Except.ok contacts) :
    resolveContacts crm ⟨campaignId, channel, ContactSelector.all⟩
      = Except.ok contacts := by
  unfold resolveContacts
  rw [h]

/-- C1: a contact already recorded as contacted before the run never appears
in the run sent list, and the Dedup Filter returns exactly the candidate
contacts for which has_been_contacted is false, preserving input order. -/
theorem claim_C1_dedup_precondition (crm : Crm) (sendFn : Contact → SendOutcome)
    (cfg : RateConfig) (rands : Nat → Nat) (req : SendRequest) (rpt : SendReport)
    (x : Nat)
    (hok : (run crm sendFn cfg rands req).result = Except.ok rpt)
    (hx : has_been_contacted crm.log req.campaignId x req.channel = true) :
    x ∉ rpt.sent
      ∧ ∀ (log : List OutreachLogEntry) (campaignId : Nat) (channel : ChannelKind)
          (contacts : List Contact),
          (filter_uncontacted log campaignId channel contacts).Sublist contacts
            ∧ ∀ c, c ∈ filter_uncontacted log campaignId channel contacts
                ↔ c ∈ contacts
                  ∧ has_been_contacted log campaignId c.id channel = false := by
  constructor
  · cases hres : resolveContacts crm req with
    | error e =>
      rw [run_of_resolve_error crm sendFn cfg rands req e hres] at hok
      simp at hok
    | ok contacts =>
      rw [run_of_resolve_ok crm sendFn cfg rands req contacts hres] at hok
      simp only [Except.ok.injEq] at hok
      subst hok
      intro hmem
      simp only [List.mem_map] at hmem
      obtain ⟨c, hc, hcid⟩ := hmem
      have hcin : c ∈ filter_uncontacted crm.log req.campaignId req.channel contacts :=
        (attemptedOf_sublist sendFn _).subset (List.mem_of_mem_filter hc)
      have hfalse := ((mem_filter_uncontacted _ _ _ _ c).mp hcin).2
      rw [hcid] at hfalse
      rw [hx] at hfalse
      exact Bool.true_eq_false.mp hfalse
  · intro log campaignId channel contacts
    exact ⟨filter_uncontacted_sublist log campaignId channel contacts,
      fun c => mem_filter_uncontacted log campaignId channel contacts c⟩

/-- Witness for C1: with contact 10 already logged for campaign 3 on email,
a full run sends only to 11 and 12 and 10 is not in the sent list. -/
theorem claim_C1_dedup_precondition_witness :
    (run crmA allDelivered cfgA zeroRands reqA).result
        = Except.ok ⟨[11, 12], [11, 12], [10], []⟩
      ∧ has_been_contacted crmA.log 3 10 ChannelKind.email = true
      ∧ 10 ∉ (⟨[11, 12], [11, 12], [10], []⟩ : SendReport).sent :=
  ⟨rfl, rfl,
    (claim_C1_dedup_precondition crmA allDelivered cfgA zeroRands reqA
      ⟨[11, 12], [11, 12], [10], []⟩ 10 rfl rfl).1⟩

/-- C4: when the contact at some position of the eligible sequence hits the
session-fatal condition (all earlier eligible contacts not fatal), the run
halts there: the attempted list stops at the fatal contact, Channel.send is
never invoked for a later contact, and every remaining unattempted contact
is reported failed("aborted: session invalid"). -/
theorem claim_C4_session_fatal_abort (crm : Crm) (sendFn : Contact → SendOutcome)
    (cfg : RateConfig) (rands : Nat → Nat) (req : SendRequest)
    (contacts l1 l2 : List Contact) (fc : Contact) (rpt : SendReport)
    (hres : resolveContacts crm req = Except.ok contacts)
    (hnodup : (contacts.map (fun c => c.id)).Nodup)
    (hsplit : filter_uncontacted crm.log req.campaignId req.channel contacts
        = l1 ++ fc :: l2)
    (hl1 : ∀ c ∈ l1, sessionFatal (sendFn c) = false)
    (hfatal : sessionFatal (sendFn fc) = true)
    (hok : (run crm sendFn cfg rands req).result = Except.ok rpt) :
    rpt.attempted = (l1 ++ [fc]).map (fun c => c.id)
      ∧ (∀ d ∈ l2, TraceEvent.channelSend d.id ∉ (run crm sendFn cfg rands req).trace)
      ∧ ∀ d ∈ l2, (d.id, "aborted: session invalid") ∈ rpt.failed := by
  have hrun := run_of_resolve_ok crm sendFn cfg rands req contacts hres
  rw [hrun] at hok
  simp only [Except.ok.injEq] at hok
  subst hok
  have hatt := (attemptedOf_fatal_split sendFn fc hfatal l1 l2 hl1).1
  have hab := (attemptedOf_fatal_split sendFn fc hfatal l1 l2 hl1).2
  have hndelig : ((l1 ++ fc :: l2).map (fun c => c.id)).Nodup := by
    have hsubl : (l1 ++ fc :: l2).Sublist contacts := by
      rw [← hsplit]
      exact filter_uncontacted_sublist _ _ _ _
    exact List.Nodup.sublist (hsubl.map (fun c => c.id)) hnodup
  refine ⟨?_, ?_, ?_⟩
  · simp only [hsplit, hatt]
  · intro d hd hmem
    rw [hrun] at hmem
    simp only [hsplit] at hmem
    have hx := traceOf_channelSend_mem sendFn cfg rands (l1 ++ fc :: l2) 0 d.id hmem
    rw [hatt] at hx
    have hrewrite : l1 ++ fc :: l2 = (l1 ++ [fc]) ++ l2 := by simp
    rw [hrewrite, List.map_append, List.nodup_append] at hndelig
    exact hndelig.2.2 hx (List.mem_map_of_mem _ hd)
  · intro d hd
    simp only [hsplit, hab]
    apply List.mem_append_right
    exact List.mem_map_of_mem _ hd

/-- Witness for C4: contact 10 hits the session-fatal condition first, so 12
is never sent and is reported aborted. -/
theorem claim_C4_session_fatal_abort_witness :
    (run crmB fatal10 cfgA zeroRands reqA).result
        = Except.ok ⟨[10], [], [],
            [(10, "session_invalid"), (11, "aborted: session invalid"),
              (12, "aborted: session invalid")]⟩
      ∧ TraceEvent.channelSend 12 ∉ (run crmB fatal10 cfgA zeroRands reqA).trace
      ∧ (12, "aborted: session invalid")
          ∈ (⟨[10], [], [],
              [(10, "session_invalid"), (11, "aborted: session invalid"),
                (12, "aborted: session invalid")]⟩ : SendReport).failed := by
  have h := claim_C4_session_fatal_abort crmB fatal10 cfgA zeroRands reqA
    sampleContacts [] [c11, c12] c10
    ⟨[10], [], [],
      [(10, "session_invalid"), (11, "aborted: session invalid"),
        (12, "aborted: session invalid")]⟩
    rfl (by decide) rfl (by intro c hc; cases hc) rfl rfl
  exact ⟨rfl, h.2.1 c12 (by decide), h.2.2 c12 (by decide)⟩


/-- C5: an UpstreamError during contact resolution aborts the run before any
send — the log is unchanged and the trace is empty; and once the send loop
has begun, each attempted contact has its log entry in the returned log and
its outcome reflected in the report, whatever happens to later contacts of
the same run. -/
theorem claim_C5_upstream_abort_and_progress_preserved (crm crm2 : Crm)
    (sendFn : Contact → SendOutcome) (cfg : RateConfig) (rands : Nat → Nat)
    (req req2 : SendRequest) (contacts : List Contact)
    (herr : resolveContacts crm req = Except.error OrchError.upstream)
    (hok : resolveContacts crm2 req2 = Except.ok contacts) :
    run crm sendFn cfg rands req = ⟨Except.error OrchError.upstream, crm.log, []⟩
      ∧ ∀ rpt, (run crm2 sendFn cfg rands req2).result = Except.ok rpt →
          ∀ c ∈ attemptedOf sendFn
              (filter_uncontacted crm2.log req2.campaignId req2.channel contacts),
            (⟨req2.campaignId, c.id, req2.channel, sendFn c⟩ : OutreachLogEntry)
                ∈ (run crm2 sendFn cfg rands req2).log
              ∧ (sendFn c = SendOutcome.delivered → c.id ∈ rpt.sent)
              ∧ ∀ r, sendFn c = SendOutcome.failed r → (c.id, r) ∈ rpt.failed := by
  constructor
  · exact run_of_resolve_error crm sendFn cfg rands req OrchError.upstream herr
  · intro rpt hrpt c hc
    have hrun := run_of_resolve_ok crm2 sendFn cfg rands req2 contacts hok
    rw [hrun] at hrpt
    simp only [Except.ok.injEq] at hrpt
    subst hrpt
    refine ⟨?_, ?_, ?_⟩
    · rw [hrun]
      simp only
      apply List.mem_append_right
      exact List.mem_map_of_mem _ hc
    · intro hdel
      simp only [List.mem_map]
      refine ⟨c, ?_, rfl⟩
      rw [List.mem_filter]
      exact ⟨hc, by rw [hdel]; rfl⟩
    · intro r hr
      simp only
      apply List.mem_append_left
      simp only [List.mem_map]
      refine ⟨c, ?_, ?_⟩
      · rw [List.mem_filter]
        refine ⟨hc, ?_⟩
        rw [hr]
        rfl
      · rw [hr]
        simp [failReason]

/-- Witness for C5: a CRM that always fails upstream leaves log and trace
empty; with a working CRM, contact 10 is delivered despite the later failure
of 11, and its log entry and report outcome are both present. -/
theorem claim_C5_upstream_abort_and_progress_preserved_witness :
    run crmErr mixedSend cfgA zeroRands reqA
        = ⟨Except.error OrchError.upstream, [], []⟩
      ∧ (⟨3, 10, ChannelKind.email, SendOutcome.delivered⟩ : OutreachLogEntry)
          ∈ (run crmB mixedSend cfgA zeroRands reqA).log
      ∧ 10 ∈ (⟨[10, 11, 12], [10, 12], [],
          [(11, "bad_address")]⟩ : SendReport).sent := by
  have h := claim_C5_upstream_abort_and_progress_preserved crmErr crmB mixedSend
    cfgA zeroRands reqA reqA sampleContacts rfl rfl
  have h2 := h.2 ⟨[10, 11, 12], [10, 12], [], [(11, "bad_address")]⟩ rfl c10
    (by decide)
  exact ⟨h.1, h2.1, h2.2.1 rfl⟩

/-- C7 counterexample: a run with two eligible contacts whose first send is
session-fatal observes zero Rate Limiter delays, not the at-least-one the
claim requires of every run with N = 2 eligible contacts. -/
theorem claim_C7_counterexample :
    RateConfig.valid cfgA
      ∧ resolveContacts crmC reqA = Except.ok [c10, c11]
      ∧ (filter_uncontacted crmC.log reqA.campaignId reqA.channel [c10, c11]).length
          = 2
      ∧ (run crmC fatal10 cfgA zeroRands reqA).trace.countP TraceEvent.isDelay = 0
      ∧ ¬(2 - 1
          ≤ (run crmC fatal10 cfgA zeroRands reqA).trace.countP TraceEvent.isDelay) := by
  refine ⟨by unfold RateConfig.valid; decide, rfl, rfl, rfl, by decide⟩

/-- C7 (amended): for every run whose eligible contacts are all attempted
(no session-fatal outcome) with a valid rate configuration and N ≥ 2
eligible contacts, exactly N − 1 delays occur — one before each send except
the very first — and every observed delay lies within the configured
interval. -/
theorem claim_C7_pacing (crm : Crm) (sendFn : Contact → SendOutcome)
    (cfg : RateConfig) (rands : Nat → Nat) (req : SendRequest)
    (contacts : List Contact)
    (hres : resolveContacts crm req = Except.ok contacts)
    (hvalid : cfg.valid)
    (hnofatal : ∀ c ∈ filter_uncontacted crm.log req.campaignId req.channel contacts,
        sessionFatal (sendFn c) = false)
    (_hN : 2 ≤ (filter_uncontacted crm.log req.campaignId req.channel contacts).length) :
    (run crm sendFn cfg rands req).trace.countP TraceEvent.isDelay
        = (filter_uncontacted crm.log req.campaignId req.channel contacts).length - 1
      ∧ ∀ ms, TraceEvent.delay ms ∈ (run crm sendFn cfg rands req).trace →
          cfg.minDelay ≤ ms ∧ ms ≤ cfg.maxDelay := by
  have hrun := run_of_resolve_ok crm sendFn cfg rands req contacts hres
  constructor
  · rw [hrun]
    simp only
    rw [traceOf_delay_count sendFn cfg rands _ 0 hnofatal]
    simp
  · intro ms hms
    rw [hrun] at hms
    simp only at hms
    exact traceOf_delay_mem sendFn cfg rands hvalid _ 0 ms hms

/-- Witness for the amended C7: three eligible contacts, all delivered, give
exactly two delays, and the observed 1500 ms delay lies in [1500, 3500]. -/
theorem claim_C7_pacing_witness :
    (run crmB allDelivered cfgA zeroRands reqA).trace.countP TraceEvent.isDelay
        = 3 - 1
      ∧ cfgA.minDelay ≤ 1500 ∧ 1500 ≤ cfgA.maxDelay := by
  have h := claim_C7_pacing crmB allDelivered cfgA zeroRands reqA sampleContacts
    rfl (by unfold RateConfig.valid; decide) (by intro c hc; rfl) (by decide)
  exact ⟨h.1, h.2 1500 (by decide)⟩


/-- C6: record_outreach is called exactly once per attempted send — the run
appends exactly one log entry per attempted contact — every attempted
contact receives exactly one outcome in the report (one entry across sent
and failed) and exactly one new log entry, and contacts that were never
attempted (only those cut off by an early abort) receive no log entry. -/
theorem claim_C6_one_outcome_one_log_entry (crm : Crm)
    (sendFn : Contact → SendOutcome) (cfg : RateConfig) (rands : Nat → Nat)
    (req : SendRequest) (contacts : List Contact) (rpt : SendReport)
    (hres : resolveContacts crm req = Except.ok contacts)
    (hnodup : (contacts.map (fun c => c.id)).Nodup)
    (hok : (run crm sendFn cfg rands req).result = Except.ok rpt) :
    (run crm sendFn cfg rands req).log.length
        = crm.log.length + rpt.attempted.length
      ∧ (∀ x ∈ rpt.attempted,
          rpt.sent.count x + rpt.failed.countP (fun p => p.1 == x) = 1)
      ∧ (∀ x ∈ rpt.attempted,
          (run crm sendFn cfg rands req).log.countP
              (fun e => e.campaignId == req.campaignId && e.contactId == x
                && e.channel == req.channel)
            = crm.log.countP
                (fun e => e.campaignId == req.campaignId && e.contactId == x
                  && e.channel == req.channel) + 1)
      ∧ ∀ x, x ∉ rpt.attempted →
          (run crm sendFn cfg rands req).log.countP
              (fun e => e.campaignId == req.campaignId && e.contactId == x
                && e.channel == req.channel)
            = crm.log.countP
                (fun e => e.campaignId == req.campaignId && e.contactId == x
                  && e.channel == req.channel) := by
  have hrun := run_of_resolve_ok crm sendFn cfg rands req contacts hres
  rw [hrun] at hok
  simp only [Except.ok.injEq] at hok
  subst hok
  have hndelig :
      ((filter_uncontacted crm.log req.campaignId req.channel contacts).map
        (fun c => c.id)).Nodup :=
    List.Nodup.sublist
      ((filter_uncontacted_sublist crm.log req.campaignId req.channel
        contacts).map (fun c => c.id)) hnodup
  have hndatt :
      ((attemptedOf sendFn
          (filter_uncontacted crm.log req.campaignId req.channel contacts)).map
        (fun c => c.id)).Nodup :=
    List.Nodup.sublist ((attemptedOf_sublist sendFn _).map (fun c => c.id)) hndelig
  refine ⟨?_, ?_, ?_, ?_⟩
  · rw [hrun]
    simp [List.length_append]
  · intro x hx
    simp only at hx
    obtain ⟨c, hc, rfl⟩ := List.mem_map.mp hx
    simp only
    have hsent :
        List.count c.id
            (((attemptedOf sendFn
                (filter_uncontacted crm.log req.campaignId req.channel contacts)).filter
                  (fun d => sendFn d == SendOutcome.delivered)).map (fun d => d.id))
          = List.countP
              (fun d => (d.id == c.id) && (sendFn d == SendOutcome.delivered))
              (attemptedOf sendFn
                (filter_uncontacted crm.log req.campaignId req.channel contacts)) := by
      rw [List.count_eq_countP, List.countP_map, List.countP_filter]
      rfl
    have hfail1 :
        List.countP (fun p => p.1 == c.id)
            (((attemptedOf sendFn
                (filter_uncontacted crm.log req.campaignId req.channel contacts)).filter
                  (fun d => !(sendFn d == SendOutcome.delivered))).map
                    (fun d => (d.id, failReason (sendFn d))))
          = List.countP
              (fun d => (d.id == c.id) && !(sendFn d == SendOutcome.delivered))
              (attemptedOf sendFn
                (filter_uncontacted crm.log req.campaignId req.channel contacts)) := by
      rw [List.countP_map, List.countP_filter]
      rfl
    have hfail2 :
        List.countP (fun p => p.1 == c.id)
            ((abortedOf sendFn
                (filter_uncontacted crm.log req.campaignId req.channel contacts)).map
                  (fun d => (d.id, "aborted: session invalid")))
          = 0 := by
      rw [List.countP_eq_zero]
      intro p hp
      obtain ⟨d, hd, rfl⟩ := List.mem_map.mp hp
      simp only [beq_iff_eq]
      intro hdc
      have hcat := attemptedOf_append_abortedOf sendFn
        (filter_uncontacted crm.log req.campaignId req.channel contacts)
      rw [← hcat, List.map_append, List.nodup_append] at hndelig
      exact hndelig.2.2 (List.mem_map_of_mem _ hc)
        (hdc ▸ List.mem_map_of_mem (fun d => d.id) hd)
    have hone :
        List.countP (fun d => d.id == c.id)
            (attemptedOf sendFn
              (filter_uncontacted crm.log req.campaignId req.channel contacts))
          = 1 := by
      have h1 : List.count c.id
          ((attemptedOf sendFn
              (filter_uncontacted crm.log req.campaignId req.channel contacts)).map
            (fun d => d.id)) = 1 :=
        List.count_eq_one_of_mem hndatt hx
      rw [List.count_eq_countP, List.countP_map] at h1
      exact h1
    rw [hsent, List.countP_append, hfail1, hfail2, Nat.add_zero, countP_split, hone]
  · intro x hx
    simp only at hx
    obtain ⟨c, hc, rfl⟩ := List.mem_map.mp hx
    rw [hrun]
    simp only
    rw [List.countP_append]
    congr 1
    rw [List.countP_map]
    have hcongr : ∀ d ∈ attemptedOf sendFn
        (filter_uncontacted crm.log req.campaignId req.channel contacts),
        ((fun e : OutreachLogEntry => e.campaignId == req.campaignId
            && e.contactId == c.id && e.channel == req.channel) ∘
          (fun d => ⟨req.campaignId, d.id, req.channel, sendFn d⟩)) d = true
          ↔ (fun d : Contact => d.id == c.id) d = true := by
      intro d _
      simp
    rw [List.countP_congr hcongr]
    have h1 : List.count c.id
        ((attemptedOf sendFn
            (filter_uncontacted crm.log req.campaignId req.channel contacts)).map
          (fun d => d.id)) = 1 :=
      List.count_eq_one_of_mem hndatt hx
    rw [List.count_eq_countP, List.countP_map] at h1
    exact h1
  · intro x hx
    rw [hrun]
    simp only
    rw [List.countP_append]
    have hzero : List.countP
        (fun e : OutreachLogEntry => e.campaignId == req.campaignId
          && e.contactId == x && e.channel == req.channel)
        ((attemptedOf sendFn
            (filter_uncontacted crm.log req.campaignId req.channel contacts)).map
          (fun d => ⟨req.campaignId, d.id, req.channel, sendFn d⟩)) = 0 := by
      rw [List.countP_eq_zero]
      intro e he
      obtain ⟨d, hd, rfl⟩ := List.mem_map.mp he
      simp only [Bool.and_eq_true, beq_iff_eq]
      intro hcontra
      apply hx
      simp only
      rw [← hcontra.1.2]
      exact List.mem_map_of_mem _ hd
    rw [hzero, Nat.add_zero]

/-- Witness for C6 at the session-fatal scenario: one attempted contact, one
new log entry, contact 10 has exactly one report outcome and one log entry,
and the aborted contact 12 has none. -/
theorem claim_C6_one_outcome_one_log_entry_witness :
    (run crmB fatal10 cfgA zeroRands reqA).log.length = 0 + 1
      ∧ ((⟨[10], [], [],
            [(10, "session_invalid"), (11, "aborted: session invalid"),
              (12, "aborted: session invalid")]⟩ : SendReport).sent.count 10
          + (⟨[10], [], [],
              [(10, "session_invalid"), (11, "aborted: session invalid"),
                (12, "aborted: session invalid")]⟩ : SendReport).failed.countP
              (fun p => p.1 == 10) = 1)
      ∧ (run crmB fatal10 cfgA zeroRands reqA).log.countP
            (fun e => e.campaignId == 3 && e.contactId == 12
              && e.channel == ChannelKind.email) = 0 := by
  have h := claim_C6_one_outcome_one_log_entry crmB fatal10 cfgA zeroRands reqA
    sampleContacts
    ⟨[10], [], [],
      [(10, "session_invalid"), (11, "aborted: session invalid"),
        (12, "aborted: session invalid")]⟩
    rfl (by decide) rfl
  refine ⟨h.1, h.2.1 10 (by decide), ?_⟩
  have h4 := h.2.2.2 12 (by decide)
  exact h4


theorem resolveContacts_of_selector_all (crm : Crm) (req : SendRequest)
    (contacts : List Contact) (hsel : req.selector = ContactSelector.all)
    (h : crm.listContacts req.campaignId req.channel = Except.ok contacts) :
    resolveContacts crm req = Except.ok contacts := by
  unfold resolveContacts
  rw [h, hsel]

/-- C2: running run with selector "all" twice in immediate succession — the
second run seeing the outreach log left by the first and the channel
behaving the same — yields a second report whose sent list is empty and
whose skipped_already_contacted list contains every contact the first run
successfully sent to. -/
theorem claim_C2_idempotence (crm crm2 : Crm) (sendFn : Contact → SendOutcome)
    (cfg : RateConfig) (rands1 rands2 : Nat → Nat) (req : SendRequest)
    (contacts : List Contact) (rpt1 rpt2 : SendReport)
    (hsel : req.selector = ContactSelector.all)
    (hlist : crm.listContacts req.campaignId req.channel = Except.ok contacts)
    (hnodup : (contacts.map (fun c => c.id)).Nodup)
    (hlist2 : crm2.listContacts req.campaignId req.channel = Except.ok contacts)
    (hlog2 : crm2.log = (run crm sendFn cfg rands1 req).log)
    (h1 : (run crm sendFn cfg rands1 req).result = Except.ok rpt1)
    (h2 : (run crm2 sendFn cfg rands2 req).result = Except.ok rpt2) :
    rpt2.sent = [] ∧ ∀ x ∈ rpt1.sent, x ∈ rpt2.skipped_already_contacted := by
  have hres1 := resolveContacts_of_selector_all crm req contacts hsel hlist
  have hrun1 := run_of_resolve_ok crm sendFn cfg rands1 req contacts hres1
  rw [hrun1] at h1
  simp only [Except.ok.injEq] at h1
  subst h1
  have hlogeq : crm2.log
      = crm.log ++ (attemptedOf sendFn
          (filter_uncontacted crm.log req.campaignId req.channel contacts)).map
            (fun c => ⟨req.campaignId, c.id, req.channel, sendFn c⟩) := by
    rw [hlog2, hrun1]
  have hres2 := resolveContacts_of_selector_all crm2 req contacts hsel hlist2
  have hrun2 := run_of_resolve_ok crm2 sendFn cfg rands2 req contacts hres2
  rw [hrun2] at h2
  simp only [Except.ok.injEq] at h2
  subst h2
  have hsub : (filter_uncontacted crm2.log req.campaignId req.channel contacts).Sublist
      (filter_uncontacted crm.log req.campaignId req.channel contacts) := by
    unfold filter_uncontacted
    apply List.monotone_filter_right
    intro a ha
    rw [Bool.not_eq_true'] at ha
    rw [Bool.not_eq_true']
    rw [hlogeq, has_been_contacted_append] at ha
    exact (Bool.or_eq_false_iff.mp ha).1
  have hnd1 : ((filter_uncontacted crm.log req.campaignId req.channel contacts).map
      (fun c => c.id)).Nodup :=
    List.Nodup.sublist
      ((filter_uncontacted_sublist crm.log req.campaignId req.channel
        contacts).map (fun c => c.id)) hnodup
  have hcond2 : ∀ d ∈ filter_uncontacted crm.log req.campaignId req.channel contacts,
      d ∉ filter_uncontacted crm2.log req.campaignId req.channel contacts →
        sessionFatal (sendFn d) = false := by
    intro d hd hdn
    have hdc : d ∈ contacts := (filter_uncontacted_sublist _ _ _ _).subset hd
    have hb1 : has_been_contacted crm.log req.campaignId d.id req.channel = false :=
      ((mem_filter_uncontacted _ _ _ _ d).mp hd).2
    cases hB : has_been_contacted crm2.log req.campaignId d.id req.channel with
    | false => exact absurd ((mem_filter_uncontacted _ _ _ _ d).mpr ⟨hdc, hB⟩) hdn
    | true =>
      rw [hlogeq] at hB
      obtain ⟨e, he, heid, hedel⟩ := exists_delivered_of_hbc_append crm.log
        req.campaignId req.channel sendFn _ d.id hB hb1
      have heC : e ∈ contacts := (filter_uncontacted_sublist _ _ _ _).subset
        ((attemptedOf_sublist sendFn _).subset he)
      have hed : e = d := List.inj_on_of_nodup_map hnodup heC hdc heid
      rw [← hed, hedel]
      rfl
  have hcond4 : ∀ d ∈ filter_uncontacted crm2.log req.campaignId req.channel contacts,
      sendFn d = SendOutcome.delivered →
        d ∉ attemptedOf sendFn
          (filter_uncontacted crm.log req.campaignId req.channel contacts) := by
    intro d hd hdel hmem
    have hb := hbc_append_of_delivered crm.log req.campaignId req.channel sendFn
      _ d hmem hdel
    have hfalse := ((mem_filter_uncontacted _ _ _ _ d).mp hd).2
    rw [hlogeq] at hfalse
    rw [hb] at hfalse
    exact Bool.noConfusion hfalse
  have hmain := no_delivered_in_attemptedOf sendFn hsub hnd1 hcond2 hcond4
  constructor
  · show ((attemptedOf sendFn
        (filter_uncontacted crm2.log req.campaignId req.channel contacts)).filter
          (fun c => sendFn c == SendOutcome.delivered)).map (fun c => c.id) = []
    have hfil : (attemptedOf sendFn
        (filter_uncontacted crm2.log req.campaignId req.channel contacts)).filter
          (fun c => sendFn c == SendOutcome.delivered) = [] := by
      rw [List.filter_eq_nil_iff]
      intro c hc
      simp only [beq_iff_eq]
      exact hmain c hc
    rw [hfil]
    rfl
  · intro x hx
    have hx2 : x ∈ ((attemptedOf sendFn
        (filter_uncontacted crm.log req.campaignId req.channel contacts)).filter
          (fun c => sendFn c == SendOutcome.delivered)).map (fun c => c.id) := hx
    obtain ⟨c, hcf, rfl⟩ := List.mem_map.mp hx2
    rw [List.mem_filter] at hcf
    obtain ⟨hc, hq⟩ := hcf
    rw [beq_iff_eq] at hq
    have hcC : c ∈ contacts := (filter_uncontacted_sublist _ _ _ _).subset
      ((attemptedOf_sublist sendFn _).subset hc)
    have hb := hbc_append_of_delivered crm.log req.campaignId req.channel sendFn
      _ c hc hq
    show c.id ∈ (contacts.filter
        (fun d => has_been_contacted crm2.log req.campaignId d.id req.channel)).map
          (fun d => d.id)
    apply List.mem_map_of_mem
    rw [List.mem_filter]
    refine ⟨hcC, ?_⟩
    rw [hlogeq]
    exact hb

/-- Witness for C2: first run delivers to 10 and 12 (11 fails), the
immediately following run sends to nobody and skips both 10 and 12. -/
theorem claim_C2_idempotence_witness :
    (run crmB mixedSend cfgA zeroRands reqA).result
        = Except.ok ⟨[10, 11, 12], [10, 12], [], [(11, "bad_address")]⟩
      ∧ (run (⟨sampleList sampleContacts,
            (run crmB mixedSend cfgA zeroRands reqA).log⟩ : Crm)
          mixedSend cfgA zeroRands reqA).result
        = Except.ok ⟨[11], [], [10, 12], [(11, "bad_address")]⟩
      ∧ (⟨[11], [], [10, 12], [(11, "bad_address")]⟩ : SendReport).sent = []
      ∧ 10 ∈ (⟨[11], [], [10, 12],
          [(11, "bad_address")]⟩ : SendReport).skipped_already_contacted := by
  have h := claim_C2_idempotence crmB
    (⟨sampleList sampleContacts, (run crmB mixedSend cfgA zeroRands reqA).log⟩ : Crm)
    mixedSend cfgA zeroRands zeroRands reqA sampleContacts
    ⟨[10, 11, 12], [10, 12], [], [(11, "bad_address")]⟩
    ⟨[11], [], [10, 12], [(11, "bad_address")]⟩
    rfl rfl (by decide) rfl rfl rfl rfl
  exact ⟨rfl, rfl, h.1, h.2 10 (by decide)⟩

end Outreach
